import Mathlib

/-!
Shallow embedding of the trading-analysis backend (`src/main.py`).

Closing prices are embedded as exact rationals (`ℚ`).  Pandas series
arithmetic can produce the IEEE special values NaN and ±infinity
(`series.diff()` puts NaN in front, `rolling(n).mean()` is NaN until the
window is full, and `avg_gain / avg_loss` divides by zero on flat or
one-sided windows), so series elements are embedded as `PFloat`: either a
rational value or one of the special values, with the IEEE propagation
rules for the operations the program uses.
-/

/-- A pandas float cell: a finite rational, NaN, +inf or -inf. -/
inductive PFloat where
  | val (x : ℚ)
  | nan
  | inf
  | ninf
  deriving DecidableEq, Repr

namespace PFloat

/-- IEEE addition on the embedded floats. -/
def add : PFloat → PFloat → PFloat
  | val a, val b => val (a + b)
  | nan, _ => nan
  | _, nan => nan
  | inf, ninf => nan
  | ninf, inf => nan
  | inf, _ => inf
  | _, inf => inf
  | ninf, _ => ninf
  | _, ninf => ninf

/-- IEEE subtraction on the embedded floats. -/
def sub : PFloat → PFloat → PFloat
  | val a, val b => val (a - b)
  | nan, _ => nan
  | _, nan => nan
  | inf, inf => nan
  | ninf, ninf => nan
  | inf, _ => inf
  | _, inf => ninf
  | ninf, _ => ninf
  | _, ninf => inf

/-- IEEE division: a nonzero finite value divided by zero is a signed
infinity and `0/0` is NaN, exactly what numpy does elementwise for
`avg_gain / avg_loss`. -/
def div : PFloat → PFloat → PFloat
  | nan, _ => nan
  | _, nan => nan
  | val a, val b =>
      if b = 0 then (if 0 < a then inf else if a < 0 then ninf else nan)
      else val (a / b)
  | val _, inf => val 0
  | val _, ninf => val 0
  | inf, val b => if 0 ≤ b then inf else ninf
  | ninf, val b => if 0 ≤ b then ninf else inf
  | inf, inf => nan
  | inf, ninf => nan
  | ninf, inf => nan
  | ninf, ninf => nan

/-- IEEE negation. -/
def neg : PFloat → PFloat
  | val x => val (-x)
  | nan => nan
  | inf => ninf
  | ninf => inf

/-- Pandas `Series.clip(lower=lo)`: values below `lo` are replaced by `lo`,
NaN is kept. -/
def clipLower (lo : ℚ) : PFloat → PFloat
  | val x => val (max lo x)
  | nan => nan
  | inf => inf
  | ninf => val lo

/-- Pandas `Series.clip(upper=hi)`: values above `hi` are replaced by `hi`,
NaN is kept. -/
def clipUpper (hi : ℚ) : PFloat → PFloat
  | val x => val (min hi x)
  | nan => nan
  | inf => val hi
  | ninf => ninf

/-- IEEE strict comparison: any comparison with NaN is false. -/
def ltb : PFloat → PFloat → Bool
  | val a, val b => decide (a < b)
  | nan, _ => false
  | _, nan => false
  | ninf, ninf => false
  | ninf, _ => true
  | _, ninf => false
  | inf, _ => false
  | val _, inf => true

/-- Rendering used when a series value is interpolated into a response
string; the exact decimal formatting of Python floats is abstracted. -/
def render : PFloat → String
  | val x => toString x
  | nan => "nan"
  | inf => "inf"
  | ninf => "-inf"

instance : ToString PFloat := ⟨render⟩

end PFloat

/-- Round a rational to the nearest integer, ties to even: the rounding
mode of Python's builtin `round`. -/
def roundHalfEven (x : ℚ) : ℤ :=
  let f := x.floor
  if x - f < 1/2 then f
  else if 1/2 < x - f then f + 1
  else if f % 2 = 0 then f else f + 1

/-- Python's `round(x, 2)`. -/
def round2 (x : ℚ) : ℚ := (roundHalfEven (x * 100) : ℚ) / 100

/-- Python `round(x, 2)` applied to a series cell; NaN and infinities are fixed
points of Python's round. -/
def round2P : PFloat → PFloat
  | .val x => .val (round2 x)
  | p => p

/-- Pandas `series.diff()`: NaN first, then consecutive differences. -/
def diff : List ℚ → List PFloat
  | [] => []
  | x :: rest => PFloat.nan :: List.zipWith (fun a b => PFloat.val (b - a)) (x :: rest) rest

/-- Sum of a window, propagating the special values. -/
def sumP (l : List PFloat) : PFloat := l.foldr PFloat.add (PFloat.val 0)

/-- Pandas `series.rolling(period).mean()` with the default
`min_periods = period`: NaN until the window is full, and NaN whenever
the window contains a NaN. -/
def rollingMean (period : Nat) (xs : List PFloat) : List PFloat :=
  (List.range xs.length).map (fun i =>
    if i + 1 < period then PFloat.nan
    else PFloat.div (sumP ((xs.take (i + 1)).drop (i + 1 - period))) (PFloat.val (period : ℚ)))

/-- The line `delta = series.diff()` inside `calculate_rsi`. -/
def rsi_delta (series : List ℚ) : List PFloat := diff series

/-- The line `gain = delta.clip(lower=0)`. -/
def rsi_gain (series : List ℚ) : List PFloat := (rsi_delta series).map (PFloat.clipLower 0)

/-- The line `loss = -delta.clip(upper=0)`. -/
def rsi_loss (series : List ℚ) : List PFloat := (rsi_delta series).map (fun d => (PFloat.clipUpper 0 d).neg)

/-- The line `avg_gain = gain.rolling(period).mean()`. -/
def rsi_avg_gain (series : List ℚ) (period : Nat) : List PFloat :=
  rollingMean period (rsi_gain series)

/-- The line `avg_loss = loss.rolling(period).mean()`. -/
def rsi_avg_loss (series : List ℚ) (period : Nat) : List PFloat :=
  rollingMean period (rsi_loss series)

/-- The line `rsi = 100 - (100 / (1 + rs))` for one cell of `rs`. -/
def rsiOfRs (rs : PFloat) : PFloat :=
  PFloat.sub (PFloat.val 100) (PFloat.div (PFloat.val 100) (PFloat.add (PFloat.val 1) rs))

/-- Pandas `Series.fillna(50)` on one cell. -/
def fillna50 (p : PFloat) : PFloat := if p = PFloat.nan then PFloat.val 50 else p

/-- Function `calculate_rsi` from `src/main.py` (the source's default `period` is
14; every caller uses that value and it is always passed explicitly
here). -/
def calculate_rsi (series : List ℚ) (period : Nat) : List PFloat :=
  ((List.zipWith PFloat.div (rsi_avg_gain series period) (rsi_avg_loss series period)).map
    rsiOfRs).map fillna50

/-- Recursion for `ewm(span, adjust=False).mean()` after the seed:
`y_i = alpha * x_i + (1 - alpha) * y_(i-1)`. -/
def ewmGo (alpha : ℚ) (prev : ℚ) : List ℚ → List ℚ
  | [] => []
  | x :: rest => (alpha * x + (1 - alpha) * prev) :: ewmGo alpha (alpha * x + (1 - alpha) * prev) rest

/-- Pandas `series.ewm(span=span, adjust=False).mean()`: seeded with the first
value, smoothing factor `alpha = 2 / (span + 1)`. -/
def ewmMean (span : Nat) (xs : List ℚ) : List ℚ :=
  match xs with
  | [] => []
  | x :: rest => x :: ewmGo ((2 : ℚ) / ((span : ℚ) + 1)) x rest

/-! ## The trend classifier and explanation template -/

/-- The three-way trend rule applied in `analyze` to the latest rounded
EMA20/EMA50/RSI values (`src/main.py` lines 116-121).  The RSI operand is
a series cell, compared with the IEEE rule. -/
def classifyTrend (ema20 ema50 : ℚ) (rsi : PFloat) : String :=
  if decide (ema20 > ema50) && PFloat.ltb (PFloat.val 55) rsi then "Bullish"
  else if decide (ema20 < ema50) && PFloat.ltb rsi (PFloat.val 45) then "Bearish"
  else "Sideways"

/-- Function `generate_explanation` from `src/main.py`; Python's decimal rendering
of the interpolated floats is abstracted by `toString`. -/
def generate_explanation (trend : String) (rsi : PFloat) (ema20 ema50 : ℚ) (interval : String) : String :=
  let tf := if interval = "1d" then "Daily timeframe" else interval ++ " timeframe"
  if trend = "Bullish" then
    tf ++ ": EMA20 (" ++ toString ema20 ++ ") EMA50 (" ++ toString ema50 ++
      ") ke upar hai aur RSI " ++ toString rsi ++ ". Buyers strong."
  else if trend = "Bearish" then
    tf ++ ": EMA20 (" ++ toString ema20 ++ ") EMA50 (" ++ toString ema50 ++
      ") ke niche hai aur RSI " ++ toString rsi ++ ". Sellers dominate."
  else
    tf ++ ": EMA20 aur EMA50 ke beech price aur RSI " ++ toString rsi ++ " neutral."

/-! ## The market-data fetcher

The outbound HTTP world is a function from the request the program sends
to what `requests.get` produces: a raised exception or a response with a
status code and a parsed JSON body. -/

/-- One raw candle row of the provider payload
(`time, open, high, low, close, volume`; the six trailing
provider-specific columns of the raw payload are bound to `_` by the
source and discarded here).  `close` is already coerced to an exact
number, modelling `df["close"].astype(float)`. -/
structure Kline where
  time : Int
  openPrice : ℚ
  high : ℚ
  low : ℚ
  close : ℚ
  volume : ℚ
  deriving DecidableEq, Repr

/-- The DataFrame built by `get_klines`; only the `close` column is read
downstream. -/
structure DataFrame where
  close : List ℚ
  deriving DecidableEq, Repr

/-- The parameters of one outbound `requests.get` call. -/
structure Request where
  url : String
  symbol : String
  interval : String
  limit : Nat
  deriving DecidableEq, Repr

/-- A parsed JSON response body: a list of candle rows, or anything that
is not a list. -/
inductive Body where
  | jlist (rows : List Kline)
  | other
  deriving DecidableEq, Repr

/-- What one `requests.get` call produces. -/
inductive HttpResult where
  | exc (msg : String)
  | resp (status_code : Nat) (body : Body)
  deriving DecidableEq, Repr

/-- The payload of `fastapi.HTTPException`. -/
structure HTTPException where
  status_code : Nat
  detail : String
  deriving DecidableEq, Repr

def BINANCE_URLS : List String :=
  ["https://api.binance.com/api/v3/klines", "https://api.binance.us/api/v3/klines"]

def ALLOWED_INTERVALS : List String := ["5m", "15m", "1h", "1d"]

/-- The interval normalization at the top of `get_klines`:
`if interval not in ALLOWED_INTERVALS: interval = "15m"`. -/
def normInterval (interval : String) : String :=
  if ALLOWED_INTERVALS.contains interval then interval else "15m"

/-- The `for url in BINANCE_URLS` loop of `get_klines`.  The first
component of the result is the list of outbound requests actually
issued; `lastError` threads the `last_error` variable of the source
(recorded on each failed attempt, never used in the final error
message). -/
def tryUrls (net : Request → HttpResult) (symbol interval : String) (limit : Nat)
    (lastError : Option String) :
    List String → List Request × Except HTTPException DataFrame
  | [] => ([], Except.error { status_code := 500, detail := "Binance API error (all endpoints failed)" })
  | url :: rest =>
    let req : Request := { url := url, symbol := symbol, interval := interval, limit := limit }
    match net req with
    | HttpResult.exc e =>
      let r := tryUrls net symbol interval limit (some e) rest
      (req :: r.1, r.2)
    | HttpResult.resp status body =>
      if status ≠ 200 then
        let r := tryUrls net symbol interval limit (some (url ++ " → " ++ toString status)) rest
        (req :: r.1, r.2)
      else
        match body with
        | Body.other =>
          let r := tryUrls net symbol interval limit (some (url ++ " → invalid data")) rest
          (req :: r.1, r.2)
        | Body.jlist rows => ([req], Except.ok { close := rows.map Kline.close })

/-- Function `get_klines` from `src/main.py` (the source's default `limit` is 200
and its only caller uses that default; it is always passed explicitly
here).  Also returns the trace of outbound requests. -/
def get_klines (net : Request → HttpResult) (symbol interval : String) (limit : Nat) :
    List Request × Except HTTPException DataFrame :=
  tryUrls net symbol (normInterval interval) limit none BINANCE_URLS

/-- An attempt fails when `requests.get` raises, the status is not 200,
or the body is not a list (`src/main.py` lines 45-53). -/
def attemptFails : HttpResult → Bool
  | HttpResult.exc _ => true
  | HttpResult.resp status (Body.jlist _) => status != 200
  | HttpResult.resp _ Body.other => true

/-! ## The `/analyze` endpoint -/

/-- Pandas `Series.iloc[-1]` on a series that is known to be nonempty at that
point of `analyze` (the guarded `df["close"].iloc[-1]` access has
already succeeded, and every series has the length of the close
column); the default is never reached. -/
def ilocLast (xs : List α) (d : α) : α := xs.getLast?.getD d

/-- Pandas `Series.tail(n)`: the last `min n length` elements, in order. -/
def tailN (n : Nat) (xs : List α) : List α := xs.drop (xs.length - n)

/-- The JSON object returned by `analyze` on success. -/
structure AnalyzeResponse where
  symbol : String
  interval : String
  trend : String
  entry : ℚ
  stoploss : ℚ
  target : ℚ
  confidence : String
  explanation : String
  prices : List ℚ
  ema20_list : List ℚ
  ema50_list : List ℚ
  rsi_list : List PFloat
  deriving DecidableEq, Repr

/-- How a request to `/analyze` can end: a 200 response, a structured
`HTTPException` (FastAPI serializes it as a JSON error), or an
exception that no code in the program handles (FastAPI surfaces it as
an unstructured internal server error). -/
inductive AnalyzeOutcome where
  | ok (resp : AnalyzeResponse)
  | httpError (e : HTTPException)
  | unhandled (msg : String)
  deriving DecidableEq, Repr

/-- The `/analyze` handler from `src/main.py` lines 99-136.  The source
rebinds `symbol = symbol.upper()` before fetching; here the uppercased
symbol is written inline at its two use sites. -/
def analyze (net : Request → HttpResult) (symbol interval : String) : AnalyzeOutcome :=
  match (get_klines net symbol.toUpper interval 200).2 with
  | Except.error e => AnalyzeOutcome.httpError e
  | Except.ok df =>
    match df.close.getLast? with
    | none => AnalyzeOutcome.unhandled "single positional indexer is out-of-bounds"
    | some lastClose =>
      let price := round2 lastClose
      let rsi_series := calculate_rsi df.close 14
      let rsi := round2P (ilocLast rsi_series PFloat.nan)
      let ema20_series := ewmMean 20 df.close
      let ema50_series := ewmMean 50 df.close
      let ema20 := round2 (ilocLast ema20_series 0)
      let ema50 := round2 (ilocLast ema50_series 0)
      let trend := classifyTrend ema20 ema50 rsi
      AnalyzeOutcome.ok
        { symbol := symbol.toUpper
          interval := interval
          trend := trend
          entry := price
          stoploss := round2 (price * (if interval = "1d" then 97/100 else 98/100))
          target := round2 (price * (if interval = "1d" then 106/100 else 103/100))
          confidence := "RSI " ++ toString rsi
          explanation := generate_explanation trend rsi ema20 ema50 interval
          prices := tailN 30 df.close
          ema20_list := tailN 30 ema20_series
          ema50_list := tailN 30 ema50_series
          rsi_list := tailN 30 rsi_series }

namespace AnalyzeOutcome

/-- The `interval` field of a successful response. -/
def intervalOf : AnalyzeOutcome → Option String
  | ok r => some r.interval
  | _ => none

/-- The `entry` field of a successful response. -/
def entryOf : AnalyzeOutcome → Option ℚ
  | ok r => some r.entry
  | _ => none

/-- The `stoploss` field of a successful response. -/
def stoplossOf : AnalyzeOutcome → Option ℚ
  | ok r => some r.stoploss
  | _ => none

/-- The `target` field of a successful response. -/
def targetOf : AnalyzeOutcome → Option ℚ
  | ok r => some r.target
  | _ => none

/-- The `prices` field of a successful response. -/
def pricesOf : AnalyzeOutcome → Option (List ℚ)
  | ok r => some r.prices
  | _ => none

/-- The `ema20_list` field of a successful response. -/
def ema20ListOf : AnalyzeOutcome → Option (List ℚ)
  | ok r => some r.ema20_list
  | _ => none

/-- The `ema50_list` field of a successful response. -/
def ema50ListOf : AnalyzeOutcome → Option (List ℚ)
  | ok r => some r.ema50_list
  | _ => none

/-- The `rsi_list` field of a successful response. -/
def rsiListOf : AnalyzeOutcome → Option (List PFloat)
  | ok r => some r.rsi_list
  | _ => none

/-- The `confidence` field of a successful response. -/
def confidenceOf : AnalyzeOutcome → Option String
  | ok r => some r.confidence
  | _ => none

/-- The `explanation` field of a successful response. -/
def explanationOf : AnalyzeOutcome → Option String
  | ok r => some r.explanation
  | _ => none

end AnalyzeOutcome

/-! ## Concrete environments used to instantiate theorems -/

/-- A flat candle at a given closing price. -/
def kline1 (c : ℚ) : Kline :=
  { time := 0, openPrice := c, high := c, low := c, close := c, volume := 0 }

/-- A provider that answers every request with HTTP 200 and the given
candle list. -/
def netConst (rows : List Kline) : Request → HttpResult :=
  fun _ => HttpResult.resp 200 (Body.jlist rows)

/-- A provider whose every endpoint raises a transport exception. -/
def netFail : Request → HttpResult := fun _ => HttpResult.exc "connection error"

/-! ## Lemmas about the RSI pipeline -/

/-- A cell that is NaN or a nonnegative finite value: the shape of every
cell of the gain and loss series and of their rolling means. -/
def NNCell (p : PFloat) : Prop := p = PFloat.nan ∨ ∃ q, 0 ≤ q ∧ p = PFloat.val q

/-- The shape of every cell of `rs = avg_gain / avg_loss`: NaN, +inf, or
a nonnegative finite value. -/
def RsCell (p : PFloat) : Prop :=
  p = PFloat.nan ∨ p = PFloat.inf ∨ ∃ q, 0 ≤ q ∧ p = PFloat.val q

theorem length_diff (xs : List ℚ) : (diff xs).length = xs.length := by
  cases xs with
  | nil => rfl
  | cons x rest => simp [diff]

theorem length_rollingMean (period : Nat) (xs : List PFloat) :
    (rollingMean period xs).length = xs.length := by
  simp [rollingMean]

theorem length_rsi_gain (s : List ℚ) : (rsi_gain s).length = s.length := by
  simp [rsi_gain, rsi_delta, length_diff]

theorem length_rsi_loss (s : List ℚ) : (rsi_loss s).length = s.length := by
  simp [rsi_loss, rsi_delta, length_diff]

theorem length_calculate_rsi (s : List ℚ) (period : Nat) :
    (calculate_rsi s period).length = s.length := by
  simp [calculate_rsi, rsi_avg_gain, rsi_avg_loss, length_rollingMean,
    length_rsi_gain, length_rsi_loss]

theorem zipWith_diff_cell (l1 l2 : List ℚ) :
    ∀ p ∈ List.zipWith (fun a b => PFloat.val (b - a)) l1 l2, ∃ q, p = PFloat.val q := by
  induction l1 generalizing l2 with
  | nil => simp
  | cons a t ih =>
    cases l2 with
    | nil => simp
    | cons b u =>
      intro p hp
      simp only [List.zipWith_cons_cons, List.mem_cons] at hp
      rcases hp with rfl | hp
      · exact ⟨b - a, rfl⟩
      · exact ih u p hp

theorem diff_cell (xs : List ℚ) : ∀ p ∈ diff xs, p = PFloat.nan ∨ ∃ q, p = PFloat.val q := by
  cases xs with
  | nil => simp [diff]
  | cons x rest =>
    intro p hp
    simp only [diff, List.mem_cons] at hp
    rcases hp with rfl | hp
    · exact Or.inl rfl
    · exact Or.inr (zipWith_diff_cell (x :: rest) rest p hp)

theorem rsi_gain_cell (s : List ℚ) : ∀ p ∈ rsi_gain s, NNCell p := by
  intro p hp
  simp only [rsi_gain, rsi_delta, List.mem_map] at hp
  obtain ⟨d, hd, rfl⟩ := hp
  rcases diff_cell s d hd with rfl | ⟨q, rfl⟩
  · exact Or.inl rfl
  · exact Or.inr ⟨max 0 q, le_max_left 0 q, rfl⟩

theorem rsi_loss_cell (s : List ℚ) : ∀ p ∈ rsi_loss s, NNCell p := by
  intro p hp
  simp only [rsi_loss, rsi_delta, List.mem_map] at hp
  obtain ⟨d, hd, rfl⟩ := hp
  rcases diff_cell s d hd with rfl | ⟨q, rfl⟩
  · exact Or.inl rfl
  · refine Or.inr ⟨-(min 0 q), ?_, rfl⟩
    simp [min_le_iff]

theorem sumP_cell (l : List PFloat) (h : ∀ p ∈ l, NNCell p) : NNCell (sumP l) := by
  induction l with
  | nil => exact Or.inr ⟨0, le_refl 0, rfl⟩
  | cons a t ih =>
    have ha := h a (List.mem_cons_self a t)
    have ht := ih (fun p hp => h p (List.mem_cons_of_mem a hp))
    show NNCell (PFloat.add a (sumP t))
    rcases ha with rfl | ⟨q, hq, rfl⟩ <;> rcases ht with he | ⟨r, hr, he⟩ <;> rw [he] <;>
      first
        | exact Or.inl rfl
        | exact Or.inr ⟨q + r, by linarith, rfl⟩

theorem rollingMean_cell (period : Nat) (hperiod : 0 < period) (xs : List PFloat)
    (h : ∀ p ∈ xs, NNCell p) : ∀ r ∈ rollingMean period xs, NNCell r := by
  intro r hr
  simp only [rollingMean, List.mem_map, List.mem_range] at hr
  obtain ⟨i, _, rfl⟩ := hr
  by_cases hwarm : i + 1 < period
  · simp only [if_pos hwarm]
    exact Or.inl rfl
  · simp only [if_neg hwarm]
    have hwin : ∀ p ∈ (xs.take (i + 1)).drop (i + 1 - period), NNCell p :=
      fun p hp => h p (List.mem_of_mem_take (List.mem_of_mem_drop hp))
    rcases sumP_cell _ hwin with hs | ⟨q, hq, hs⟩ <;> rw [hs]
    · exact Or.inl rfl
    · have hpq : ((period : ℚ)) ≠ 0 := by positivity
      refine Or.inr ⟨q / (period : ℚ), by positivity, ?_⟩
      simp [PFloat.div, hpq]

theorem rs_cell (a b : PFloat) (ha : NNCell a) (hb : NNCell b) : RsCell (PFloat.div a b) := by
  rcases ha with rfl | ⟨q, hq, rfl⟩
  · exact Or.inl (by cases b <;> rfl)
  · rcases hb with rfl | ⟨r, hr, rfl⟩
    · exact Or.inl rfl
    · by_cases hr0 : r = 0
      · subst hr0
        by_cases hq0 : 0 < q
        · exact Or.inr (Or.inl (by simp [PFloat.div, hq0]))
        · have hq0' : q = 0 := le_antisymm (not_lt.mp hq0) hq
          subst hq0'
          exact Or.inl (by simp [PFloat.div])
      · refine Or.inr (Or.inr ⟨q / r, ?_, by simp [PFloat.div, hr0]⟩)
        exact div_nonneg hq (lt_of_le_of_ne hr (Ne.symm hr0)).le

theorem add_nan_left (p : PFloat) : PFloat.add PFloat.nan p = PFloat.nan := by
  cases p <;> rfl

theorem div_nan_left (p : PFloat) : PFloat.div PFloat.nan p = PFloat.nan := by
  cases p <;> rfl

theorem rsi_cell_bounds (rs : PFloat) (h : RsCell rs) :
    ∃ x, fillna50 (rsiOfRs rs) = PFloat.val x ∧ 0 ≤ x ∧ x ≤ 100 := by
  rcases h with rfl | rfl | ⟨q, hq, rfl⟩
  · exact ⟨50, rfl, by norm_num⟩
  · exact ⟨100, by with_unfolding_all decide, by norm_num⟩
  · have h1 : (1 : ℚ) + q ≠ 0 := by linarith
    have hval : fillna50 (rsiOfRs (PFloat.val q)) = PFloat.val (100 - 100 / (1 + q)) := by
      simp [rsiOfRs, PFloat.add, PFloat.div, PFloat.sub, h1, fillna50]
    refine ⟨100 - 100 / (1 + q), hval, ?_, ?_⟩
    · have : 100 / (1 + q) ≤ 100 / (1 + 0) := by
        apply div_le_div_of_nonneg_left (by norm_num) (by norm_num) (by linarith)
      simp at this
      linarith
    · have : 0 ≤ 100 / (1 + q) := by positivity
      linarith

theorem exists_of_mem_zipWith {α β γ : Type} {f : α → β → γ} {l1 : List α} {l2 : List β} {c : γ}
    (h : c ∈ List.zipWith f l1 l2) : ∃ a b, a ∈ l1 ∧ b ∈ l2 ∧ c = f a b := by
  induction l1 generalizing l2 with
  | nil => simp at h
  | cons a t ih =>
    cases l2 with
    | nil => simp at h
    | cons b u =>
      simp only [List.zipWith_cons_cons, List.mem_cons] at h
      rcases h with rfl | h
      · exact ⟨a, b, List.mem_cons_self a t, List.mem_cons_self b u, rfl⟩
      · obtain ⟨x, y, hx, hy, rfl⟩ := ih h
        exact ⟨x, y, List.mem_cons_of_mem a hx, List.mem_cons_of_mem b hy, rfl⟩

theorem rollingMean_getElem (period : Nat) (xs : List PFloat) (i : Nat) (h : i < xs.length) :
    (rollingMean period xs)[i]? = some (if i + 1 < period then PFloat.nan
      else PFloat.div (sumP ((xs.take (i + 1)).drop (i + 1 - period))) (PFloat.val (period : ℚ))) := by
  simp [rollingMean, List.getElem?_map, List.getElem?_range h]

theorem rsi_avg_gain_warmup (s : List ℚ) (i : Nat) (hi : i < s.length) (hw : i < 14) :
    (rsi_avg_gain s 14)[i]? = some PFloat.nan := by
  have hlen : i < (rsi_gain s).length := by rw [length_rsi_gain]; exact hi
  rw [rsi_avg_gain, rollingMean_getElem 14 _ i hlen]
  by_cases hw1 : i + 1 < 14
  · rw [if_pos hw1]
  · rw [if_neg hw1]
    have hi13 : i = 13 := by omega
    subst hi13
    cases s with
    | nil => simp at hi
    | cons c rest =>
      have hgain : rsi_gain (c :: rest) = PFloat.nan ::
          (List.zipWith (fun a b => PFloat.val (b - a)) (c :: rest) rest).map (PFloat.clipLower 0) := by
        simp [rsi_gain, rsi_delta, diff, PFloat.clipLower]
      rw [hgain]
      simp [sumP, add_nan_left, div_nan_left]

theorem calculate_rsi_getElem (s : List ℚ) (period i : Nat) :
    (calculate_rsi s period)[i]? =
      Option.map fillna50 (Option.map rsiOfRs
        ((List.zipWith PFloat.div (rsi_avg_gain s period) (rsi_avg_loss s period))[i]?)) := by
  simp [calculate_rsi, List.getElem?_map]

theorem fillna_rsi_nan : fillna50 (rsiOfRs PFloat.nan) = PFloat.val 50 := by
  with_unfolding_all decide

theorem fillna_rsi_inf : fillna50 (rsiOfRs PFloat.inf) = PFloat.val 100 := by
  with_unfolding_all decide

theorem calculate_rsi_warmup (s : List ℚ) (i : Nat) (hi : i < s.length) (hw : i < 14) :
    (calculate_rsi s 14)[i]? = some (PFloat.val 50) := by
  rw [calculate_rsi_getElem, List.getElem?_zipWith, rsi_avg_gain_warmup s i hi hw]
  have hlen : i < (rsi_avg_loss s 14).length := by
    rw [rsi_avg_loss, length_rollingMean, length_rsi_loss]; exact hi
  rw [List.getElem?_eq_getElem hlen]
  simp [div_nan_left, fillna_rsi_nan]

theorem calculate_rsi_zero_loss (s : List ℚ) (i : Nat) (g : ℚ)
    (hg : (rsi_avg_gain s 14)[i]? = some (PFloat.val g))
    (hl : (rsi_avg_loss s 14)[i]? = some (PFloat.val 0)) :
    (calculate_rsi s 14)[i]? = some (PFloat.val (if 0 < g then 100 else 50)) := by
  have hg0 : 0 ≤ g := by
    have hmem := List.getElem?_mem hg
    rcases rollingMean_cell 14 (by norm_num) _ (rsi_gain_cell s) _ hmem with h | ⟨q, hq, hqq⟩
    · cases h
    · rw [show g = q by injection hqq]; exact hq
  have hzip : (List.zipWith PFloat.div (rsi_avg_gain s 14) (rsi_avg_loss s 14))[i]? =
      some (PFloat.div (PFloat.val g) (PFloat.val 0)) := by
    rw [List.getElem?_zipWith, hg, hl]
  rw [calculate_rsi_getElem, hzip]
  by_cases hpos : 0 < g
  · have hdiv : PFloat.div (PFloat.val g) (PFloat.val 0) = PFloat.inf := by
      simp [PFloat.div, hpos]
    rw [hdiv, if_pos hpos,
      show Option.map fillna50 (Option.map rsiOfRs (some PFloat.inf)) =
        some (fillna50 (rsiOfRs PFloat.inf)) from rfl, fillna_rsi_inf]
  · have hz : g = 0 := le_antisymm (not_lt.mp hpos) hg0
    subst hz
    have hdiv : PFloat.div (PFloat.val 0) (PFloat.val 0) = PFloat.nan := by
      simp [PFloat.div]
    rw [hdiv, if_neg hpos,
      show Option.map fillna50 (Option.map rsiOfRs (some PFloat.nan)) =
        some (fillna50 (rsiOfRs PFloat.nan)) from rfl, fillna_rsi_nan]

/-- C1 (amended): over any non-empty closing-price sequence, every cell of
the RSI series produced by `calculate_rsi` with period 14 is a finite value
in [0, 100]; it equals exactly 50 at every warm-up position (index < 14);
and at a position whose rolling 14-window average of losses is 0 the value
is 100 when the window's average gain is positive and 50 when it is 0 —
not unconditionally 50 as the original claim states. -/
theorem rsi_bounds_warmup_zero_loss (series : List ℚ) (hne : series ≠ []) :
    (∀ p ∈ calculate_rsi series 14, ∃ x, p = PFloat.val x ∧ 0 ≤ x ∧ x ≤ 100) ∧
    (∀ i : Nat, i < 14 → i < series.length → (calculate_rsi series 14)[i]? = some (PFloat.val 50)) ∧
    (∀ (i : Nat) (g : ℚ), (rsi_avg_gain series 14)[i]? = some (PFloat.val g) →
      (rsi_avg_loss series 14)[i]? = some (PFloat.val 0) →
      (calculate_rsi series 14)[i]? = some (PFloat.val (if 0 < g then 100 else 50))) := by
  refine ⟨?_, ?_, ?_⟩
  · intro p hp
    simp only [calculate_rsi, List.mem_map] at hp
    obtain ⟨r, ⟨rs, hrs, rfl⟩, rfl⟩ := hp
    obtain ⟨a, b, ha, hb, rfl⟩ := exists_of_mem_zipWith hrs
    have hcell : RsCell (PFloat.div a b) :=
      rs_cell a b
        (rollingMean_cell 14 (by norm_num) _ (rsi_gain_cell series) a ha)
        (rollingMean_cell 14 (by norm_num) _ (rsi_loss_cell series) b hb)
    obtain ⟨x, hx, hx0, hx100⟩ := rsi_cell_bounds _ hcell
    exact ⟨x, hx, hx0, hx100⟩
  · intro i hw hi
    exact calculate_rsi_warmup series i hi hw
  · intro i g hg hl
    exact calculate_rsi_zero_loss series i g hg hl

/-- Witness for C1's theorem on a concrete two-point series. -/
theorem rsi_bounds_warmup_zero_loss_witness :
    (calculate_rsi [(1 : ℚ), 2] 14)[0]? = some (PFloat.val 50) ∧
    (calculate_rsi [(1 : ℚ), 2] 14)[1]? = some (PFloat.val 50) :=
  ⟨(rsi_bounds_warmup_zero_loss [(1 : ℚ), 2] (by decide)).2.1 0 (by decide) (by decide),
   (rsi_bounds_warmup_zero_loss [(1 : ℚ), 2] (by decide)).2.1 1 (by decide) (by decide)⟩

/-- Counterexample to C1 as stated: on the strictly increasing series
1..15, position 14 has a zero rolling average of losses, yet the RSI value
there is 100, not 50. -/
theorem rsi_zero_loss_is_100_counterexample :
    (rsi_avg_loss [(1 : ℚ), 2, 3, 4, 5, 6, 7, 8, 9, 10, 11, 12, 13, 14, 15] 14)[14]? =
      some (PFloat.val 0) ∧
    (calculate_rsi [(1 : ℚ), 2, 3, 4, 5, 6, 7, 8, 9, 10, 11, 12, 13, 14, 15] 14)[14]? =
      some (PFloat.val 100) ∧
    PFloat.val (100 : ℚ) ≠ PFloat.val 50 := by
  with_unfolding_all decide

/-! ## Lemmas about the EMA recursion -/

theorem length_ewmGo (a : ℚ) (l : List ℚ) : ∀ p : ℚ, (ewmGo a p l).length = l.length := by
  induction l with
  | nil => intro p; rfl
  | cons x t ih => intro p; simp [ewmGo, ih]

theorem length_ewmMean (span : Nat) (xs : List ℚ) : (ewmMean span xs).length = xs.length := by
  cases xs with
  | nil => rfl
  | cons x rest => simp [ewmMean, length_ewmGo]

theorem ewmGo_head (a p : ℚ) (l : List ℚ) (v : ℚ) (hv : l[0]? = some v) :
    (ewmGo a p l)[0]? = some (a * v + (1 - a) * p) := by
  cases l with
  | nil => simp at hv
  | cons x t =>
    simp only [List.getElem?_cons_zero, Option.some_inj] at hv
    subst hv
    simp [ewmGo]

theorem ewmGo_step (a : ℚ) (l : List ℚ) :
    ∀ (p : ℚ) (i : Nat) (v e : ℚ), l[i + 1]? = some v → (ewmGo a p l)[i]? = some e →
      (ewmGo a p l)[i + 1]? = some (a * v + (1 - a) * e) := by
  induction l with
  | nil => intro p i v e hv _; simp at hv
  | cons x t ih =>
    intro p i v e hv he
    cases i with
    | zero =>
      simp only [ewmGo, List.getElem?_cons_zero, Option.some_inj] at he
      simp only [List.getElem?_cons_succ] at hv
      simp only [ewmGo, List.getElem?_cons_succ]
      rw [ewmGo_head a _ t v hv, he]
    | succ n =>
      simp only [List.getElem?_cons_succ] at hv
      simp only [ewmGo, List.getElem?_cons_succ] at he ⊢
      exact ih _ n v e hv he

/-- C2: the EMA series used in `analyze` (span 20 and span 50) has the
length of the input, is seeded with the first closing price, and obeys
the recurrence `ema[i+1] = alpha*close[i+1] + (1-alpha)*ema[i]` with
`alpha = 2/(span+1)`; every position, including the first, is defined. -/
theorem ewm_seed_recurrence (span : Nat) (hspan : span = 20 ∨ span = 50)
    (xs : List ℚ) (hne : xs ≠ []) :
    (ewmMean span xs).length = xs.length ∧
    (ewmMean span xs)[0]? = xs[0]? ∧
    (∀ (i : Nat) (v e : ℚ), xs[i + 1]? = some v → (ewmMean span xs)[i]? = some e →
      (ewmMean span xs)[i + 1]? =
        some ((2 / ((span : ℚ) + 1)) * v + (1 - 2 / ((span : ℚ) + 1)) * e)) := by
  clear hspan
  cases xs with
  | nil => exact absurd rfl hne
  | cons x rest =>
    refine ⟨length_ewmMean span (x :: rest), by simp [ewmMean], ?_⟩
    intro i v e hv he
    cases i with
    | zero =>
      simp only [ewmMean, List.getElem?_cons_zero, Option.some_inj] at he
      simp only [List.getElem?_cons_succ] at hv
      simp only [ewmMean, List.getElem?_cons_succ]
      rw [ewmGo_head _ _ rest v hv, he]
    | succ n =>
      simp only [List.getElem?_cons_succ] at hv
      simp only [ewmMean, List.getElem?_cons_succ] at he ⊢
      exact ewmGo_step _ rest _ n v e hv he

/-- Witness for C2's theorem on a concrete two-point series with span 20. -/
theorem ewm_seed_recurrence_witness :
    (ewmMean 20 [(1 : ℚ), 2]).length = 2 ∧
    (ewmMean 20 [(1 : ℚ), 2])[0]? = some 1 ∧
    (ewmMean 20 [(1 : ℚ), 2])[1]? =
      some ((2 / ((20 : ℚ) + 1)) * 2 + (1 - 2 / ((20 : ℚ) + 1)) * 1) := by
  have h := ewm_seed_recurrence 20 (Or.inl rfl) [(1 : ℚ), 2] (by decide)
  exact ⟨h.1, h.2.1.trans (by decide), h.2.2 0 2 1 (by decide) (h.2.1.trans (by decide))⟩

/-- C3: the trend label is a pure function of the latest rounded
(ema20, ema50, rsi) values and matches the three-way rule exactly:
Bullish iff `ema20 > ema50` and `rsi > 55`, Bearish iff `ema20 < ema50`
and `rsi < 45`, and Sideways in every other case, including every
boundary and tie case. -/
theorem trend_three_way_rule (ema20 ema50 r : ℚ) :
    (classifyTrend ema20 ema50 (PFloat.val r) = "Bullish" ↔ ema20 > ema50 ∧ r > 55) ∧
    (classifyTrend ema20 ema50 (PFloat.val r) = "Bearish" ↔ ema20 < ema50 ∧ r < 45) ∧
    (classifyTrend ema20 ema50 (PFloat.val r) = "Sideways" ↔
      ¬(ema20 > ema50 ∧ r > 55) ∧ ¬(ema20 < ema50 ∧ r < 45)) := by
  have hb1 : ("Bullish" : String) ≠ "Bearish" := by decide
  have hb2 : ("Bullish" : String) ≠ "Sideways" := by decide
  have hb3 : ("Bearish" : String) ≠ "Bullish" := by decide
  have hb4 : ("Bearish" : String) ≠ "Sideways" := by decide
  have hb5 : ("Sideways" : String) ≠ "Bullish" := by decide
  have hb6 : ("Sideways" : String) ≠ "Bearish" := by decide
  have hl1 : PFloat.ltb (PFloat.val 55) (PFloat.val r) = decide (55 < r) := rfl
  have hl2 : PFloat.ltb (PFloat.val r) (PFloat.val 45) = decide (r < 45) := rfl
  unfold classifyTrend
  rw [hl1, hl2]
  by_cases h1 : ema20 > ema50 <;> by_cases h2 : (55 : ℚ) < r <;>
    by_cases h3 : ema20 < ema50 <;> by_cases h4 : r < (45 : ℚ) <;>
    simp [h1, h2, h3, h4, hb1, hb2, hb3, hb4, hb5, hb6] <;>
    linarith

/-! ## Lemmas about the fetch fallback -/

/-- The recorded `last_error` never influences the result: every branch of
the loop overwrites it before recursing and the final error message is a
constant. -/
theorem tryUrls_lastError_irrelevant (net : Request → HttpResult) (s i : String) (l : Nat)
    (urls : List String) (le le2 : Option String) :
    tryUrls net s i l le urls = tryUrls net s i l le2 urls := by
  cases urls <;> rfl

theorem attempt_success_shape (r : HttpResult) (h : attemptFails r = false) :
    ∃ rows, r = HttpResult.resp 200 (Body.jlist rows) := by
  cases r with
  | exc e => simp [attemptFails] at h
  | resp status body =>
    cases body with
    | jlist rows =>
      have hs : status = 200 := by simpa [attemptFails] using h
      exact ⟨rows, by rw [hs]⟩
    | other => simp [attemptFails] at h

theorem tryUrls_cons_of_fail (net : Request → HttpResult) (s i : String) (l : Nat)
    (le : Option String) (url : String) (rest : List String)
    (h : attemptFails (net { url := url, symbol := s, interval := i, limit := l }) = true) :
    tryUrls net s i l le (url :: rest) =
      ({ url := url, symbol := s, interval := i, limit := l } :: (tryUrls net s i l none rest).1,
       (tryUrls net s i l none rest).2) := by
  cases hn : net { url := url, symbol := s, interval := i, limit := l } with
  | exc e =>
    simp only [tryUrls, hn]
    rw [tryUrls_lastError_irrelevant net s i l rest (some e) none]
  | resp status body =>
    cases body with
    | other =>
      simp only [tryUrls, hn]
      split_ifs with hs
      · rw [tryUrls_lastError_irrelevant net s i l rest _ none]
      · rw [tryUrls_lastError_irrelevant net s i l rest _ none]
    | jlist rows =>
      have hs : status ≠ 200 := by
        rw [hn] at h
        simpa [attemptFails] using h
      simp only [tryUrls, hn]
      rw [if_pos hs, tryUrls_lastError_irrelevant net s i l rest _ none]

theorem tryUrls_cons_of_success (net : Request → HttpResult) (s i : String) (l : Nat)
    (le : Option String) (url : String) (rest : List String) (rows : List Kline)
    (h : net { url := url, symbol := s, interval := i, limit := l } =
      HttpResult.resp 200 (Body.jlist rows)) :
    tryUrls net s i l le (url :: rest) =
      ([{ url := url, symbol := s, interval := i, limit := l }],
       Except.ok { close := rows.map Kline.close }) := by
  simp only [tryUrls, h]
  simp

/-- Every request the loop issues carries the symbol, interval and limit
it was given; only the URL varies. -/
theorem tryUrls_fields (net : Request → HttpResult) (s i : String) (l : Nat) :
    ∀ (urls : List String) (le : Option String) (req : Request),
      req ∈ (tryUrls net s i l le urls).1 →
        req.symbol = s ∧ req.interval = i ∧ req.limit = l := by
  intro urls
  induction urls with
  | nil => intro le req h; simp [tryUrls] at h
  | cons url rest ih =>
    intro le req h
    cases hf : attemptFails (net { url := url, symbol := s, interval := i, limit := l }) with
    | true =>
      rw [tryUrls_cons_of_fail net s i l le url rest hf] at h
      rcases List.mem_cons.mp h with rfl | h2
      · exact ⟨rfl, rfl, rfl⟩
      · exact ih none req h2
    | false =>
      obtain ⟨rows, hrows⟩ := attempt_success_shape _ hf
      rw [tryUrls_cons_of_success net s i l le url rest rows hrows] at h
      rcases List.mem_cons.mp h with rfl | h2
      · exact ⟨rfl, rfl, rfl⟩
      · simp at h2

/-- The request `get_klines` sends to the first provider endpoint. -/
def firstRequest (symbol interval : String) (limit : Nat) : Request :=
  { url := "https://api.binance.com/api/v3/klines", symbol := symbol, interval := normInterval interval, limit := limit }

/-- The request `get_klines` sends to the second (fallback) provider endpoint. -/
def secondRequest (symbol interval : String) (limit : Nat) : Request :=
  { url := "https://api.binance.us/api/v3/klines", symbol := symbol, interval := normInterval interval, limit := limit }

/-- C4: whenever the first endpoint's attempt fails (exception, non-200
status, or non-list body), the second endpoint is attempted with the same
symbol, interval and limit; and if the second attempt also fails the call
returns the structured 500 error whose detail is the fixed generic string,
independent of the recorded per-endpoint errors, with no partial result. -/
theorem fetch_fallback_generic_500 (symbol interval : String) (limit : Nat)
    (net : Request → HttpResult)
    (h1 : attemptFails (net (firstRequest symbol interval limit)) = true) :
    ((get_klines net symbol interval limit).1.map Request.url = BINANCE_URLS ∧
     ∀ req ∈ (get_klines net symbol interval limit).1,
       req.symbol = symbol ∧ req.interval = normInterval interval ∧ req.limit = limit) ∧
    (attemptFails (net (secondRequest symbol interval limit)) = true →
      (get_klines net symbol interval limit).2 =
        Except.error { status_code := 500, detail := "Binance API error (all endpoints failed)" }) := by
  have hg : get_klines net symbol interval limit =
      tryUrls net symbol (normInterval interval) limit none
        ("https://api.binance.com/api/v3/klines" :: ["https://api.binance.us/api/v3/klines"]) := rfl
  rw [hg, tryUrls_cons_of_fail net symbol (normInterval interval) limit none _ _ h1]
  refine ⟨⟨?_, ?_⟩, ?_⟩
  · cases hf2 : attemptFails (net (secondRequest symbol interval limit)) with
    | true =>
      rw [tryUrls_cons_of_fail net symbol (normInterval interval) limit none _ _ hf2]
      rfl
    | false =>
      obtain ⟨rows, hrows⟩ := attempt_success_shape _ hf2
      rw [tryUrls_cons_of_success net symbol (normInterval interval) limit none _ _ rows hrows]
      rfl
  · intro req hreq
    rcases List.mem_cons.mp hreq with rfl | h2
    · exact ⟨rfl, rfl, rfl⟩
    · exact tryUrls_fields net symbol (normInterval interval) limit _ none req h2
  · intro hf2
    rw [tryUrls_cons_of_fail net symbol (normInterval interval) limit none _ _ hf2]
    rfl

/-- Witness for C4's theorem: with every endpoint raising a transport
exception, both endpoints are tried and the call ends in the generic
structured 500. -/
theorem fetch_fallback_generic_500_witness :
    (get_klines netFail "BTCUSDT" "15m" 200).1.map Request.url = BINANCE_URLS ∧
    (get_klines netFail "BTCUSDT" "15m" 200).2 =
      Except.error { status_code := 500, detail := "Binance API error (all endpoints failed)" } :=
  ⟨(fetch_fallback_generic_500 "BTCUSDT" "15m" 200 netFail (by decide)).1.1,
   (fetch_fallback_generic_500 "BTCUSDT" "15m" 200 netFail (by decide)).2 (by decide)⟩

/-- C5: an interval outside the allow-list is silently normalized to
"15m": every outbound request uses "15m", and the whole call is
indistinguishable from a call that asked for "15m" — in particular no
error is raised for the unrecognized value. -/
theorem invalid_interval_coerced (symbol interval : String) (limit : Nat)
    (net : Request → HttpResult)
    (h : ALLOWED_INTERVALS.contains interval = false) :
    (∀ req ∈ (get_klines net symbol interval limit).1, req.interval = "15m") ∧
    get_klines net symbol interval limit = get_klines net symbol "15m" limit := by
  have hnorm : normInterval interval = "15m" := by
    unfold normInterval
    rw [h]
    rfl
  constructor
  · intro req hreq
    have hfield := (tryUrls_fields net symbol (normInterval interval) limit
      BINANCE_URLS none req hreq).2.1
    rw [hnorm] at hfield
    exact hfield
  · show tryUrls net symbol (normInterval interval) limit none BINANCE_URLS =
      tryUrls net symbol (normInterval "15m") limit none BINANCE_URLS
    rw [hnorm]
    rfl

/-- Witness for C5's theorem at the unrecognized interval "2h". -/
theorem invalid_interval_coerced_witness :
    (∀ req ∈ (get_klines netFail "BTCUSDT" "2h" 200).1, req.interval = "15m") ∧
    get_klines netFail "BTCUSDT" "2h" 200 = get_klines netFail "BTCUSDT" "15m" 200 :=
  invalid_interval_coerced "BTCUSDT" "2h" 200 netFail (by decide)

/-! ## Lemmas about the `/analyze` handler -/

/-- Field-by-field characterization of a successful `/analyze` response in
terms of the fetched close column. -/
theorem analyze_fields (net : Request → HttpResult) (symbol interval : String)
    (df : DataFrame) (lastClose : ℚ)
    (h1 : (get_klines net symbol.toUpper interval 200).2 = Except.ok df)
    (h2 : df.close.getLast? = some lastClose) :
    (analyze net symbol interval).intervalOf = some interval ∧
    (analyze net symbol interval).entryOf = some (round2 lastClose) ∧
    (analyze net symbol interval).stoplossOf =
      some (round2 (round2 lastClose * (if interval = "1d" then 97/100 else 98/100))) ∧
    (analyze net symbol interval).targetOf =
      some (round2 (round2 lastClose * (if interval = "1d" then 106/100 else 103/100))) ∧
    (analyze net symbol interval).pricesOf = some (tailN 30 df.close) ∧
    (analyze net symbol interval).ema20ListOf = some (tailN 30 (ewmMean 20 df.close)) ∧
    (analyze net symbol interval).ema50ListOf = some (tailN 30 (ewmMean 50 df.close)) ∧
    (analyze net symbol interval).rsiListOf = some (tailN 30 (calculate_rsi df.close 14)) := by
  unfold analyze
  rw [h1]
  dsimp only
  rw [h2]
  exact ⟨rfl, rfl, rfl, rfl, rfl, rfl, rfl, rfl⟩

/-- C6 (amended): the `interval` field of a 200 response echoes the
interval exactly as requested — not the normalized interval: the
normalization inside `get_klines` is local to the fetch, where every
outbound request carries the normalized value. -/
theorem response_interval_is_raw (net : Request → HttpResult) (symbol interval : String)
    (df : DataFrame) (lastClose : ℚ)
    (h1 : (get_klines net symbol.toUpper interval 200).2 = Except.ok df)
    (h2 : df.close.getLast? = some lastClose) :
    (analyze net symbol interval).intervalOf = some interval ∧
    (get_klines net symbol.toUpper interval 200).1.map Request.interval =
      (get_klines net symbol.toUpper interval 200).1.map (fun _ => normInterval interval) := by
  refine ⟨(analyze_fields net symbol interval df lastClose h1 h2).1, ?_⟩
  apply List.map_congr_left
  intro req hreq
  exact (tryUrls_fields net symbol.toUpper (normInterval interval) 200 BINANCE_URLS none req hreq).2.1

/-- Witness for C6's amended theorem. -/
theorem response_interval_is_raw_witness :
    (analyze (netConst [kline1 100]) "BTCUSDT" "2h").intervalOf = some "2h" ∧
    (get_klines (netConst [kline1 100]) "BTCUSDT".toUpper "2h" 200).1.map Request.interval =
      (get_klines (netConst [kline1 100]) "BTCUSDT".toUpper "2h" 200).1.map
        (fun _ => normInterval "2h") :=
  response_interval_is_raw (netConst [kline1 100]) "BTCUSDT" "2h"
    { close := [100] } 100 (by rfl) (by rfl)

/-- Counterexample to C6 as stated: for the unrecognized interval "2h" the
fetch request uses "15m" but the 200 response's `interval` field is "2h". -/
theorem response_interval_counterexample :
    (get_klines (netConst [kline1 100]) "BTCUSDT" "2h" 200).1.map Request.interval = ["15m"] ∧
    (analyze (netConst [kline1 100]) "BTCUSDT" "2h").intervalOf = some "2h" ∧
    ("2h" : String) ≠ "15m" := by
  refine ⟨by decide, rfl, by decide⟩

/-- C7: stoploss and target are `round2` of the entry price times 0.97 and
1.06 on interval "1d", else times 0.98 and 1.03; on a latest price of
100.00 this gives 97.00/106.00 on "1d" and 98.00/103.00 on "15m". -/
theorem stoploss_target_rule (net : Request → HttpResult) (symbol interval : String) :
    ((analyze net symbol interval).stoplossOf = (analyze net symbol interval).entryOf.map
      (fun p => round2 (p * (if interval = "1d" then 97/100 else 98/100)))) ∧
    ((analyze net symbol interval).targetOf = (analyze net symbol interval).entryOf.map
      (fun p => round2 (p * (if interval = "1d" then 106/100 else 103/100)))) ∧
    (analyze (netConst [kline1 100]) "BTCUSDT" "1d").entryOf = some 100 ∧
    (analyze (netConst [kline1 100]) "BTCUSDT" "1d").stoplossOf = some 97 ∧
    (analyze (netConst [kline1 100]) "BTCUSDT" "1d").targetOf = some 106 ∧
    (analyze (netConst [kline1 100]) "BTCUSDT" "15m").stoplossOf = some 98 ∧
    (analyze (netConst [kline1 100]) "BTCUSDT" "15m").targetOf = some 103 := by
  refine ⟨?_, ?_, by with_unfolding_all decide, by with_unfolding_all decide,
    by with_unfolding_all decide, by with_unfolding_all decide, by with_unfolding_all decide⟩
  all_goals
    unfold analyze
    cases hk : (get_klines net (String.toUpper symbol) interval 200).2 with
    | error e => rfl
    | ok df =>
      dsimp only
      cases hlast : df.close.getLast? with
      | none => rfl
      | some c => rfl

/-! ## Rounding lemmas and the remaining response claims -/

theorem rat_floor_eq_intFloor (x : ℚ) : x.floor = ⌊x⌋ :=
  (Rat.floor_def' x).trans Rat.floor_def.symm

theorem roundHalfEven_intCast (k : ℤ) : roundHalfEven (k : ℚ) = k := by
  simp only [roundHalfEven]
  rw [rat_floor_eq_intFloor, Int.floor_intCast, sub_self]
  norm_num

theorem round2_idem (x : ℚ) : round2 (round2 x) = round2 x := by
  have h : round2 x * 100 = ((roundHalfEven (x * 100) : ℤ) : ℚ) := by
    unfold round2
    rw [div_mul_cancel₀]
    norm_num
  rw [show round2 (round2 x) = ((roundHalfEven (round2 x * 100) : ℤ) : ℚ) / 100 from rfl,
    h, roundHalfEven_intCast]
  rfl

/-- Counterexample to C8 as stated: with closes [1, 2] the response's
`ema20_list` contains 23/21, which is not a 2-decimal value (rounding it
gives 11/10 ≠ 23/21): the trailing lists are not rounded before
inclusion. -/
theorem lists_not_rounded_counterexample :
    (analyze (netConst [kline1 1, kline1 2]) "BTCUSDT" "15m").ema20ListOf =
      some [1, 23/21] ∧ round2 (23/21) ≠ 23/21 := by
  constructor
  · with_unfolding_all decide
  · with_unfolding_all decide

theorem round2P_idem (p : PFloat) : round2P (round2P p) = round2P p := by
  cases p <;> simp [round2P, round2_idem]

/-- The response's `confidence` and `explanation` strings interpolate the
`round2`-rounded latest RSI and EMA scalars, not the raw latest series
values. -/
theorem analyze_string_fields (net : Request → HttpResult) (symbol interval : String)
    (df : DataFrame) (lastClose : ℚ)
    (h1 : (get_klines net symbol.toUpper interval 200).2 = Except.ok df)
    (h2 : df.close.getLast? = some lastClose) :
    (analyze net symbol interval).confidenceOf =
      some ("RSI " ++ toString (round2P (ilocLast (calculate_rsi df.close 14) PFloat.nan))) ∧
    (analyze net symbol interval).explanationOf =
      some (generate_explanation
        (classifyTrend (round2 (ilocLast (ewmMean 20 df.close) 0))
          (round2 (ilocLast (ewmMean 50 df.close) 0))
          (round2P (ilocLast (calculate_rsi df.close 14) PFloat.nan)))
        (round2P (ilocLast (calculate_rsi df.close 14) PFloat.nan))
        (round2 (ilocLast (ewmMean 20 df.close) 0))
        (round2 (ilocLast (ewmMean 50 df.close) 0)) interval) := by
  unfold analyze
  rw [h1]
  dsimp only
  rw [h2]
  exact ⟨rfl, rfl⟩

/-- C8 (amended): the scalar monetary outputs entry, stoploss and target
are rounded to 2 decimal places (they are fixed points of `round2`), and
the latest RSI/EMA scalars enter the response — through the `confidence`
and `explanation` strings — already rounded to 2 decimals (the
interpolated values are the `round2` images of the latest series cells,
and are fixed points of the rounding); but the values inside the four
trailing lists are included UNROUNDED — the lists are exactly the raw
trailing windows of the close, EMA and RSI series. -/
theorem scalars_rounded_lists_unrounded (net : Request → HttpResult) (symbol interval : String)
    (df : DataFrame) (lastClose : ℚ)
    (h1 : (get_klines net symbol.toUpper interval 200).2 = Except.ok df)
    (h2 : df.close.getLast? = some lastClose) :
    ((analyze net symbol interval).entryOf.map round2 = (analyze net symbol interval).entryOf) ∧
    ((analyze net symbol interval).stoplossOf.map round2 = (analyze net symbol interval).stoplossOf) ∧
    ((analyze net symbol interval).targetOf.map round2 = (analyze net symbol interval).targetOf) ∧
    (analyze net symbol interval).pricesOf = some (tailN 30 df.close) ∧
    (analyze net symbol interval).ema20ListOf = some (tailN 30 (ewmMean 20 df.close)) ∧
    (analyze net symbol interval).ema50ListOf = some (tailN 30 (ewmMean 50 df.close)) ∧
    (analyze net symbol interval).rsiListOf = some (tailN 30 (calculate_rsi df.close 14)) ∧
    ((analyze net symbol interval).confidenceOf =
      some ("RSI " ++ toString (round2P (ilocLast (calculate_rsi df.close 14) PFloat.nan)))) ∧
    ((analyze net symbol interval).explanationOf =
      some (generate_explanation
        (classifyTrend (round2 (ilocLast (ewmMean 20 df.close) 0))
          (round2 (ilocLast (ewmMean 50 df.close) 0))
          (round2P (ilocLast (calculate_rsi df.close 14) PFloat.nan)))
        (round2P (ilocLast (calculate_rsi df.close 14) PFloat.nan))
        (round2 (ilocLast (ewmMean 20 df.close) 0))
        (round2 (ilocLast (ewmMean 50 df.close) 0)) interval)) ∧
    round2P (round2P (ilocLast (calculate_rsi df.close 14) PFloat.nan)) =
      round2P (ilocLast (calculate_rsi df.close 14) PFloat.nan) ∧
    round2 (round2 (ilocLast (ewmMean 20 df.close) 0)) =
      round2 (ilocLast (ewmMean 20 df.close) 0) ∧
    round2 (round2 (ilocLast (ewmMean 50 df.close) 0)) =
      round2 (ilocLast (ewmMean 50 df.close) 0) := by
  obtain ⟨hi, he, hs, ht, hp, h20, h50, hr⟩ := analyze_fields net symbol interval df lastClose h1 h2
  obtain ⟨hc, hx⟩ := analyze_string_fields net symbol interval df lastClose h1 h2
  refine ⟨?_, ?_, ?_, hp, h20, h50, hr, hc, hx, round2P_idem _, round2_idem _, round2_idem _⟩
  · rw [he]
    simp [round2_idem]
  · rw [hs]
    simp [round2_idem]
  · rw [ht]
    simp [round2_idem]

/-- Witness for C8's amended theorem on concrete closes [1, 2]. -/
theorem scalars_rounded_lists_unrounded_witness :
    ((analyze (netConst [kline1 1, kline1 2]) "BTCUSDT" "15m").entryOf.map round2 =
      (analyze (netConst [kline1 1, kline1 2]) "BTCUSDT" "15m").entryOf) ∧
    (analyze (netConst [kline1 1, kline1 2]) "BTCUSDT" "15m").ema20ListOf =
      some (tailN 30 (ewmMean 20 [1, 2])) ∧
    (analyze (netConst [kline1 1, kline1 2]) "BTCUSDT" "15m").confidenceOf =
      some ("RSI " ++ toString (round2P (ilocLast (calculate_rsi [(1 : ℚ), 2] 14) PFloat.nan))) ∧
    round2P (round2P (ilocLast (calculate_rsi [(1 : ℚ), 2] 14) PFloat.nan)) =
      round2P (ilocLast (calculate_rsi [(1 : ℚ), 2] 14) PFloat.nan) :=
  have h := scalars_rounded_lists_unrounded (netConst [kline1 1, kline1 2]) "BTCUSDT" "15m"
    { close := [1, 2] } 2 rfl rfl
  ⟨h.1, h.2.2.2.2.1, h.2.2.2.2.2.2.2.1, h.2.2.2.2.2.2.2.2.2.1⟩

/-- C9: when the fetch succeeds with an empty candle list, the `iloc[-1]`
access on the close column is out of range, and no handler in the program
converts this into a structured error response: `analyze` ends as an
unhandled exception, not as an `HTTPException`. -/
theorem empty_candles_unhandled (net : Request → HttpResult) (symbol interval : String)
    (h : (get_klines net symbol.toUpper interval 200).2 = Except.ok { close := [] }) :
    analyze net symbol interval =
      AnalyzeOutcome.unhandled "single positional indexer is out-of-bounds" := by
  unfold analyze
  rw [h]
  rfl

/-- Witness for C9's theorem: a provider answering 200 with an empty
list. -/
theorem empty_candles_unhandled_witness :
    analyze (netConst []) "BTCUSDT" "15m" =
      AnalyzeOutcome.unhandled "single positional indexer is out-of-bounds" :=
  empty_candles_unhandled (netConst []) "BTCUSDT" "15m" rfl

theorem tailN_length {α : Type} (n : Nat) (xs : List α) :
    (tailN n xs).length = min n xs.length := by
  simp [tailN]
  omega

theorem tailN_getElem {α : Type} (n : Nat) (xs : List α) (j : Nat) :
    (tailN n xs)[j]? = xs[xs.length - min n xs.length + j]? := by
  rw [tailN, List.getElem?_drop]
  congr 1
  omega

/-- C10: in a successful response over n fetched candles the four lists
prices, ema20_list, ema50_list and rsi_list all have length min(30, n);
each underlying series has length n; and the lists are positionally
aligned: for every j, the j-th element of each list is the
(n - min 30 n + j)-th element of its full series. -/
theorem trailing_lists_aligned (net : Request → HttpResult) (symbol interval : String)
    (df : DataFrame) (lastClose : ℚ) (j : Nat)
    (h1 : (get_klines net symbol.toUpper interval 200).2 = Except.ok df)
    (h2 : df.close.getLast? = some lastClose) :
    ((analyze net symbol interval).pricesOf.map List.length = some (min 30 df.close.length)) ∧
    ((analyze net symbol interval).ema20ListOf.map List.length = some (min 30 df.close.length)) ∧
    ((analyze net symbol interval).ema50ListOf.map List.length = some (min 30 df.close.length)) ∧
    ((analyze net symbol interval).rsiListOf.map List.length = some (min 30 df.close.length)) ∧
    (ewmMean 20 df.close).length = df.close.length ∧
    (ewmMean 50 df.close).length = df.close.length ∧
    (calculate_rsi df.close 14).length = df.close.length ∧
    ((analyze net symbol interval).pricesOf.bind (fun l => l[j]?) =
      df.close[df.close.length - min 30 df.close.length + j]?) ∧
    ((analyze net symbol interval).ema20ListOf.bind (fun l => l[j]?) =
      (ewmMean 20 df.close)[df.close.length - min 30 df.close.length + j]?) ∧
    ((analyze net symbol interval).ema50ListOf.bind (fun l => l[j]?) =
      (ewmMean 50 df.close)[df.close.length - min 30 df.close.length + j]?) ∧
    ((analyze net symbol interval).rsiListOf.bind (fun l => l[j]?) =
      (calculate_rsi df.close 14)[df.close.length - min 30 df.close.length + j]?) := by
  obtain ⟨hi, he, hs, ht, hp, h20, h50, hr⟩ := analyze_fields net symbol interval df lastClose h1 h2
  rw [hp, h20, h50, hr]
  refine ⟨?_, ?_, ?_, ?_, length_ewmMean 20 df.close, length_ewmMean 50 df.close,
    length_calculate_rsi df.close 14, ?_, ?_, ?_, ?_⟩
  · simp [tailN_length]
  · simp [tailN_length, length_ewmMean]
  · simp [tailN_length, length_ewmMean]
  · simp [tailN_length, length_calculate_rsi]
  · simp only [Option.some_bind]
    exact tailN_getElem 30 df.close j
  · simp only [Option.some_bind]
    rw [tailN_getElem 30 (ewmMean 20 df.close) j, length_ewmMean]
  · simp only [Option.some_bind]
    rw [tailN_getElem 30 (ewmMean 50 df.close) j, length_ewmMean]
  · simp only [Option.some_bind]
    rw [tailN_getElem 30 (calculate_rsi df.close 14) j, length_calculate_rsi]

/-- Witness for C10's theorem on concrete closes [1, 2]. -/
theorem trailing_lists_aligned_witness :
    (analyze (netConst [kline1 1, kline1 2]) "BTCUSDT" "15m").pricesOf.map List.length =
      some (min 30 2) ∧
    (analyze (netConst [kline1 1, kline1 2]) "BTCUSDT" "15m").pricesOf.bind (fun l => l[0]?) =
      [(1 : ℚ), 2][2 - min 30 2 + 0]? :=
  have h := trailing_lists_aligned (netConst [kline1 1, kline1 2]) "BTCUSDT" "15m"
    { close := [1, 2] } 2 0 rfl rfl
  ⟨h.1, h.2.2.2.2.2.2.2.1⟩
